import Mathlib

/-!
Shallow embedding of the `@utility/file` module (src/file.ts): thin wrappers
around the Deno runtime's filesystem, network and process primitives.

The Deno runtime itself is not part of the repository, so it is modelled here
as an explicit world state (a partial map from path strings to filesystem
entries, plus a map of paths whose access raises a given error, modelling
permission failures and the like).  Every effectful operation is a function
`World → Except Err α × World`: on an error the state at the point of failure
is returned, matching a thrown exception that aborts the remaining statements.
External collaborators that live outside the filesystem (HTTP fetch, process
spawning, glob iteration) are parameters of the embedding, collected in `Env`.
-/

/-- Error values thrown by the modelled runtime, mirroring the `Deno.errors`
kinds the source distinguishes plus JavaScript's `SyntaxError` from
`JSON.parse` and a catch-all for other error objects. -/
inductive Err where
  | NotFound
  | AlreadyExists
  | PermissionDenied
  | SyntaxError
  | other (msg : String)
deriving Repr, DecidableEq

/-- A filesystem entry: a regular file with (textual) contents, or a
directory.  File contents are modelled as strings; the byte/text distinction
is irrelevant to the claims. -/
inductive Entry where
  | file (content : String)
  | dir
deriving Repr, DecidableEq

/-- The mutable world the wrappers act on: the filesystem proper, and the set
of paths whose access throws a runtime error (e.g. `PermissionDenied`),
recorded with the error it throws. -/
structure World where
  fs : String → Option Entry
  errs : String → Option Err

/-- Effectful computations: state passing over `World` with thrown errors.
An error outcome keeps the world reached so far, as a thrown JS exception
leaves already-performed mutations in place. -/
def FileM (α : Type) : Type := World → Except Err α × World

/-- Sequential composition, mirroring `await` sequencing: a thrown error
aborts the continuation. -/
def FileM.bind {α β : Type} (m : FileM α) (f : α → FileM β) : FileM β :=
  fun w =>
    match m w with
    | (Except.ok a, w') => f a w'
    | (Except.error e, w') => (Except.error e, w')

instance monadFileM : Monad FileM where
  pure a := fun w => (Except.ok a, w)
  bind := FileM.bind

/-- Throw a runtime error (a JS `throw`). -/
def FileM.throwErr {α : Type} (e : Err) : FileM α := fun w => (Except.error e, w)

namespace Deno

/-- Models `Deno.stat`: succeeds when the path is present, throws `NotFound`
when absent, and throws the recorded access error (e.g. permissions) when the
path is marked as erroring. -/
def stat (p : String) : FileM Entry := fun w =>
  match w.errs p with
  | some e => (Except.error e, w)
  | none =>
    match w.fs p with
    | some ent => (Except.ok ent, w)
    | none => (Except.error Err.NotFound, w)

/-- Replace (or create) the entry at path `p`. -/
def setFile (w : World) (p : String) (ent : Entry) : World :=
  { w with fs := fun q => if q = p then some ent else w.fs q }

/-- Models `Deno.mkdir(path, { recursive })`.  Without `recursive` it throws
`AlreadyExists` when the path is present; with `recursive` an existing
directory is accepted silently while an existing file still throws.  (Parent
directories are not tracked: paths are opaque keys in this embedding.) -/
def mkdir (p : String) (recursive : Bool) : FileM Unit := fun w =>
  match w.errs p with
  | some e => (Except.error e, w)
  | none =>
    match w.fs p with
    | some Entry.dir =>
      if recursive then (Except.ok (), w) else (Except.error Err.AlreadyExists, w)
    | some (Entry.file _) => (Except.error Err.AlreadyExists, w)
    | none => (Except.ok (), setFile w p Entry.dir)

/-- Models `Deno.remove(path)`: throws `NotFound` for an absent path, the
recorded access error for an erroring one, and otherwise deletes the entry. -/
def remove (p : String) : FileM Unit := fun w =>
  match w.errs p with
  | some e => (Except.error e, w)
  | none =>
    match w.fs p with
    | some _ => (Except.ok (), { w with fs := fun q => if q = p then none else w.fs q })
    | none => (Except.error Err.NotFound, w)

/-- Models `Deno.readTextFile`: returns a file's contents, throws `NotFound`
for an absent path, the recorded access error for an erroring one, and a
generic error when the path is a directory. -/
def readTextFile (p : String) : FileM String := fun w =>
  match w.errs p with
  | some e => (Except.error e, w)
  | none =>
    match w.fs p with
    | some (Entry.file c) => (Except.ok c, w)
    | some Entry.dir => (Except.error (Err.other "IsADirectory"), w)
    | none => (Except.error Err.NotFound, w)

/-- Models `Deno.writeTextFile`: creates the file or replaces its contents;
throws the recorded access error, or a generic error when the path is a
directory. -/
def writeTextFile (p : String) (content : String) : FileM Unit := fun w =>
  match w.errs p with
  | some e => (Except.error e, w)
  | none =>
    match w.fs p with
    | some Entry.dir => (Except.error (Err.other "IsADirectory"), w)
    | _ => (Except.ok (), setFile w p (Entry.file content))

/-- Models `Deno.open(path, { write: true, create: true })` followed by
`response.body.pipeTo(file.writable)`: streams `content` into the file at
`p`, creating it if needed.  Throws the recorded access error, or a generic
error when the path is a directory. -/
def openWritePipe (p : String) (content : String) : FileM Unit := fun w =>
  match w.errs p with
  | some e => (Except.error e, w)
  | none =>
    match w.fs p with
    | some Entry.dir => (Except.error (Err.other "IsADirectory"), w)
    | _ => (Except.ok (), setFile w p (Entry.file content))

end Deno

/-- Function `exists` from src/file.ts: `Deno.stat` wrapped in try/catch, converting
only `NotFound` into `false` and re-throwing every other error. -/
def «exists» (p : String) : FileM Bool := fun w =>
  match Deno.stat p w with
  | (Except.ok _, w') => (Except.ok true, w')
  | (Except.error e, w') =>
    if e = Err.NotFound then (Except.ok false, w') else (Except.error e, w')

/-- Function `mkdir` from src/file.ts: `await Deno.mkdir(path)` (non-recursive). -/
def mkdir (p : String) : FileM Unit :=
  Deno.mkdir p false

/-- Function `mkdirRecursive` from src/file.ts: `await Deno.mkdir(path, { recursive: true })`. -/
def mkdirRecursive (p : String) : FileM Unit :=
  Deno.mkdir p true

/-- Function `remove` from src/file.ts: `await Deno.remove(path)`. -/
def remove (p : String) : FileM Unit :=
  Deno.remove p

/-- Function `readTextFile` from src/file.ts: `await Deno.readTextFile(filePath)`. -/
def readTextFile (filePath : String) : FileM String :=
  Deno.readTextFile filePath

/-- Function `writeTextFile` from src/file.ts: `await Deno.writeTextFile(filePath, content)`. -/
def writeTextFile (filePath : String) (content : String) : FileM Unit :=
  Deno.writeTextFile filePath content

/-- JSON documents: the untyped key-value data flowing through the JSON
helpers.  Numbers are modelled as integers (the only numerals the tests and
spec exercise); floats are outside the embedding. -/
inductive JSON where
  | null
  | bool (b : Bool)
  | num (n : Int)
  | str (s : String)
  | arr (elems : List JSON)
  | obj (members : List (String × JSON))
deriving Repr

/-- The escape table `JSON.stringify` applies on the common escapes: each
pair maps a raw character to the letter written after the backslash. -/
def stringifyEscapes : List (Char × Char) :=
  [('"', '"'), ('\\', '\\'), ('\n', 'n'), ('\t', 't'), ('\r', 'r')]

/-- JSON string escaping for one character, via the escape table. -/
def escapeChar (c : Char) : String :=
  match stringifyEscapes.find? (fun pr => pr.1 == c) with
  | some pr => String.mk ['\\', pr.2]
  | none => String.singleton c

/-- Escape every character of a string. -/
def escapeString (s : String) : String :=
  String.join (s.toList.map escapeChar)

/-- A JSON string literal: quotes around the escaped contents. -/
def quoteString (s : String) : String :=
  "\"" ++ escapeString s ++ "\""

mutual

/-- Models `JSON.stringify(object)` as called by `writeJsonFile`: compact
serialization, no pretty-printing (no whitespace or indentation emitted). -/
def JSON.stringify : JSON → String
  | JSON.null => "null"
  | JSON.bool true => "true"
  | JSON.bool false => "false"
  | JSON.num n => toString n
  | JSON.str s => quoteString s
  | JSON.arr xs => "[" ++ stringifyElems xs ++ "]"
  | JSON.obj ms => "\x7b" ++ stringifyMembers ms ++ "\x7d"

/-- Comma-separated serialization of array elements. -/
def stringifyElems : List JSON → String
  | [] => ""
  | [x] => JSON.stringify x
  | x :: y :: rest => JSON.stringify x ++ "," ++ stringifyElems (y :: rest)

/-- Comma-separated serialization of object members. -/
def stringifyMembers : List (String × JSON) → String
  | [] => ""
  | [(k, v)] => quoteString k ++ ":" ++ JSON.stringify v
  | (k, v) :: m :: rest =>
    quoteString k ++ ":" ++ JSON.stringify v ++ "," ++ stringifyMembers (m :: rest)

end

/-- The opening curly brace character. -/
def lcurly : Char := Char.ofNat 123

/-- The closing curly brace character. -/
def rcurly : Char := Char.ofNat 125

/-- Whether a character is JSON insignificant whitespace. -/
def isWsChar (c : Char) : Bool :=
  c == ' ' || c == '\n' || c == '\t' || c == '\r'

/-- Drop leading JSON whitespace. -/
def skipWs : List Char → List Char
  | [] => []
  | c :: rest => if isWsChar c then skipWs rest else c :: rest

/-- The escape table `JSON.parse` accepts for two-character escapes: each
pair maps the letter after the backslash to the character it denotes. -/
def parseEscapes : List (Char × Char) :=
  [('"', '"'), ('\\', '\\'), ('/', '/'), ('n', '\n'), ('t', '\t'), ('r', '\r'),
   ('b', Char.ofNat 8), ('f', Char.ofNat 12)]

/-- Decode one escaped character (the character after a backslash), via the
escape table. -/
def unescapeChar (c : Char) : Option Char :=
  match parseEscapes.find? (fun pr => pr.1 == c) with
  | some pr => some pr.2
  | none => none

/-- Parse the remainder of a JSON string literal (the opening quote already
consumed), returning its characters and the rest of the input. -/
def parseStringChars : List Char → Option (List Char × List Char)
  | [] => none
  | c :: rest =>
    if c == '"' then some ([], rest)
    else if c == '\\' then
      match rest with
      | [] => none
      | e :: rest2 =>
        match unescapeChar e with
        | none => none
        | some u =>
          match parseStringChars rest2 with
          | none => none
          | some (cs, rem) => some (u :: cs, rem)
    else
      match parseStringChars rest with
      | none => none
      | some (cs, rem) => some (c :: cs, rem)

/-- Numeric value of a digit character. -/
def digitVal (c : Char) : Nat := c.toNat - 48

/-- Parse a nonempty run of digits into a natural number. -/
def parseNatNum (cs : List Char) : Option (Nat × List Char) :=
  let ds := cs.takeWhile (fun c => c.isDigit)
  let rest := cs.dropWhile (fun c => c.isDigit)
  if ds.isEmpty then none
  else some (ds.foldl (fun a c => a * 10 + digitVal c) 0, rest)

/-- Parse a JSON integer numeral (optional minus sign, then digits). -/
def parseNumber : List Char → Option (JSON × List Char)
  | [] => none
  | c :: rest =>
    if c == '-' then
      match parseNatNum rest with
      | some (n, rem) => some (JSON.num (-(n : Int)), rem)
      | none => none
    else
      match parseNatNum (c :: rest) with
      | some (n, rem) => some (JSON.num (n : Int), rem)
      | none => none

/-- Match an expected literal character sequence, returning the rest. -/
def matchLiteral : List Char → List Char → Option (List Char)
  | [], cs => some cs
  | _ :: _, [] => none
  | k :: ks, c :: cs => if c == k then matchLiteral ks cs else none

mutual

/-- Fuel-indexed recursive-descent parser for one JSON value, modelling
`JSON.parse`.  Returns the value and the unconsumed input. -/
def parseValue : Nat → List Char → Option (JSON × List Char)
  | 0, _ => none
  | Nat.succ f, input =>
    match skipWs input with
    | [] => none
    | c :: body =>
      if c == '"' then
        (parseStringChars body).map (fun pr => (JSON.str (String.mk pr.1), pr.2))
      else if c == '[' then
        (parseArrayTail f (skipWs body)).map (fun pr => (JSON.arr pr.1, pr.2))
      else if c == lcurly then
        (parseObjectTail f (skipWs body)).map (fun pr => (JSON.obj pr.1, pr.2))
      else if c == 'n' then
        (matchLiteral "ull".toList body).map (fun tl => (JSON.null, tl))
      else if c == 't' then
        (matchLiteral "rue".toList body).map (fun tl => (JSON.bool true, tl))
      else if c == 'f' then
        (matchLiteral "alse".toList body).map (fun tl => (JSON.bool false, tl))
      else parseNumber (c :: body)

/-- After an opening `[` (whitespace skipped): an immediate `]` is the empty
array, anything else must be a nonempty element list. -/
def parseArrayTail : Nat → List Char → Option (List JSON × List Char)
  | 0, _ => none
  | Nat.succ f, cs =>
    match cs with
    | ']' :: tl => some ([], tl)
    | _ => parseElems f cs

/-- After an opening brace (whitespace skipped): an immediate closing brace
is the empty object, anything else must be a nonempty member list. -/
def parseObjectTail : Nat → List Char → Option (List (String × JSON) × List Char)
  | 0, _ => none
  | Nat.succ f, cs =>
    match cs with
    | [] => none
    | d :: tl => if d == rcurly then some ([], tl) else parseMembers f cs

/-- Parse a nonempty comma-separated element list, consuming the closing
`]`. -/
def parseElems : Nat → List Char → Option (List JSON × List Char)
  | 0, _ => none
  | Nat.succ f, cs =>
    match parseValue f cs with
    | none => none
    | some (v, r1) =>
      match skipWs r1 with
      | ',' :: r2 => (parseElems f r2).map (fun pr => (v :: pr.1, pr.2))
      | ']' :: r2 => some ([v], r2)
      | _ => none

/-- Parse a nonempty comma-separated member list, consuming the closing
brace. -/
def parseMembers : Nat → List Char → Option (List (String × JSON) × List Char)
  | 0, _ => none
  | Nat.succ f, cs =>
    match skipWs cs with
    | '"' :: r0 =>
      match parseStringChars r0 with
      | none => none
      | some (keyChars, r1) =>
        match skipWs r1 with
        | ':' :: r2 =>
          match parseValue f r2 with
          | none => none
          | some (v, r3) =>
            let member := (String.mk keyChars, v)
            match skipWs r3 with
            | sep :: r4 =>
              if sep == ',' then
                (parseMembers f r4).map (fun pr => (member :: pr.1, pr.2))
              else if sep == rcurly then some ([member], r4)
              else none
            | [] => none
        | _ => none
    | _ => none

end

/-- Models `JSON.parse(text)`: parse one value, require only whitespace
after it; `none` models a thrown `SyntaxError`. -/
def JSON.parse (s : String) : Option JSON :=
  match parseValue (2 * s.length + 2) s.toList with
  | some (v, rest) => if (skipWs rest).isEmpty then some v else none
  | none => none

/-- Function `readJsonFile` from src/file.ts: `JSON.parse(await readTextFile(filePath))`;
a failed parse is a thrown `SyntaxError`. -/
def readJsonFile (filePath : String) : FileM JSON := fun w =>
  match readTextFile filePath w with
  | (Except.ok s, w') =>
    match JSON.parse s with
    | some j => (Except.ok j, w')
    | none => (Except.error Err.SyntaxError, w')
  | (Except.error e, w') => (Except.error e, w')

/-- The `for await (const file of iterator) { ... result.push(data) }` loop
of `readJsonFilesFromPath`, accumulating parsed documents in order. -/
def readJsonFilesLoop : List String → List JSON → FileM (List JSON)
  | [], result => pure result
  | f :: rest, result => do
    let data ← readJsonFile f
    readJsonFilesLoop rest (result ++ [data])

/-- Function `readJsonFilesFromPath` from src/file.ts.  `expandGlob` (from `@std/fs`,
outside this repository) is a parameter: given the pattern and the current
world it yields the matching paths in its iteration order. -/
def readJsonFilesFromPath (expandGlob : String → World → List String)
    (filePath : String) : FileM (List JSON) := fun w =>
  readJsonFilesLoop (expandGlob filePath w) [] w

/-- Function `writeJsonFile` from src/file.ts:
`writeTextFile(filePath, JSON.stringify(object))`. -/
def writeJsonFile (filePath : String) (object : JSON) : FileM Unit :=
  writeTextFile filePath (JSON.stringify object)

/-- An external command invocation: executable name and argument list, as
passed to `new Deno.Command(name, { args })`. -/
structure Command where
  name : String
  args : List String
deriving Repr, DecidableEq

/-- The observed outcome of a completed external command
(`commandProcess.output()`); only the `success` flag (exit-status success)
is consulted by the source. -/
structure Output where
  success : Bool
deriving Repr, DecidableEq

/-- The operating system reported by `Deno.build.os`; the source only
distinguishes `windows` from everything else. -/
inductive OS where
  | windows
  | linux
  | darwin
deriving Repr, DecidableEq

/-- External collaborators of the archive fetcher, outside the filesystem:
the build OS, the HTTP fetch (href to error, or a response whose body is
`none` when null and `some content` otherwise), and the external process
runner (`Deno.Command#output`), which may itself mutate the filesystem and
throws exactly when the command cannot be started. -/
structure Env where
  os : OS
  fetch : String → Except Err (Option String)
  runCommand : Command → World → Except Err Output × World

/-- The platform-appropriate extraction command `unZip` builds: PowerShell's
`Expand-Archive` on Windows, the system `unzip` elsewhere. -/
def unzipCommand (os : OS) (zipSourcePath : String) (destinationPath : String) : Command :=
  if os = OS.windows then
    { name := "PowerShell"
      args := ["Expand-Archive", "-Path", zipSourcePath, "-DestinationPath", destinationPath] }
  else
    { name := "unzip", args := [zipSourcePath, "-d", destinationPath] }

/-- Function `unZip` from src/file.ts: build the OS-appropriate command, run it, and
return `output.success`.  A throw from starting the command propagates. -/
def unZip (env : Env) (zipSourcePath : String) (destinationPath : String) : FileM Bool := fun w =>
  let unzipCommandProcess := unzipCommand env.os zipSourcePath destinationPath
  match env.runCommand unzipCommandProcess w with
  | (Except.ok output, w') => (Except.ok output.success, w')
  | (Except.error e, w') => (Except.error e, w')

/-- Models `path.join(destinationPath, "_temp_.zip")` (separator choice is
irrelevant to the claims). -/
def pathJoin (a : String) (b : String) : String := a ++ "/" ++ b

/-- Function `__downloadFileToTemp` from src/file.ts: fetch the URL (modelled by its
href string), throw when the response body is null, then stream the body to
`_temp_.zip` inside the destination directory and return that path.  (The
`console.log` diagnostic on success is not modelled.) -/
def __downloadFileToTemp (env : Env) (downloadUrl : String)
    (destinationPath : String) : FileM String := fun w =>
  match env.fetch downloadUrl with
  | Except.error e => (Except.error e, w)
  | Except.ok none => (Except.error (Err.other "Response body is null"), w)
  | Except.ok (some body) =>
    let tempFilePath := pathJoin destinationPath "_temp_.zip"
    match Deno.openWritePipe tempFilePath body w with
    | (Except.ok _, w') => (Except.ok tempFilePath, w')
    | (Except.error e, w') => (Except.error e, w')

/-- The first step of `unZipFromURL` (src/file.ts lines 297-299, named here
for the proofs): create the destination directory when it does not exist. -/
def ensureDestination (destinationPath : String) : FileM Unit := do
  if !(← «exists» destinationPath) then
    mkdirRecursive destinationPath

/-- Function `unZipFromURL` from src/file.ts: ensure the destination exists, download
the archive to the temp file, run `unZip` (its boolean result is discarded,
as in `await unZip(...)` with no use of the value), then remove the temp
file. -/
def unZipFromURL (env : Env) (downloadUrl : String) (destinationPath : String) : FileM Unit := do
  ensureDestination destinationPath
  let tempFilePath ← __downloadFileToTemp env downloadUrl destinationPath
  let _ ← unZip env tempFilePath destinationPath
  Deno.remove tempFilePath

/-- Reference reading of the spec's read-json-glob contract: an ordered
sequence of parsed JSON objects in the iteration order of the matches, with
the first read/parse failure propagated (reads do not mutate the world, so
the same world is threaded throughout). -/
def readJsonSeqSpec : List String → World → Except Err (List JSON)
  | [], _ => Except.ok []
  | f :: rest, w =>
    match (readJsonFile f w).1 with
    | Except.ok j =>
      match readJsonSeqSpec rest w with
      | Except.ok js => Except.ok (j :: js)
      | Except.error e => Except.error e
    | Except.error e => Except.error e

/-- An empty world: no files, no erroring paths. -/
def wEmpty : World := { fs := fun _ => none, errs := fun _ => none }

/-- A world with one path that throws `PermissionDenied` on access. -/
def wPerm : World :=
  { fs := fun _ => none
    errs := fun q => if q = "locked" then some Err.PermissionDenied else none }

/-- A world with one text file. -/
def wHello : World :=
  { fs := fun q => if q = "sample.txt" then some (Entry.file "Hello") else none
    errs := fun _ => none }

/-- Environment whose fetch succeeds and whose extraction process reports
success. -/
def envSuccess : Env :=
  { os := OS.linux
    fetch := fun _ => Except.ok (some "PKZIPDATA")
    runCommand := fun _ w => (Except.ok { success := true }, w) }

/-- Environment whose fetch succeeds but whose extraction process reports
failure (exit status unsuccessful) without touching the filesystem. -/
def envExtractFail : Env :=
  { os := OS.linux
    fetch := fun _ => Except.ok (some "PKZIPDATA")
    runCommand := fun _ w => (Except.ok { success := false }, w) }

/-- Environment whose extraction command cannot be started at all. -/
def envSpawnErr : Env :=
  { os := OS.linux
    fetch := fun _ => Except.ok (some "PKZIPDATA")
    runCommand := fun _ w => (Except.error (Err.other "ENOENT"), w) }

/-- Environment whose fetch fails with a network error. -/
def envNetFail : Env :=
  { os := OS.linux
    fetch := fun _ => Except.error (Err.other "network failure")
    runCommand := fun _ w => (Except.ok { success := true }, w) }

/-- Intermediate world of the extraction-failure run: after ensuring the
destination. -/
def w1ExtractFail : World := (ensureDestination "d" wEmpty).2

/-- Intermediate world of the extraction-failure run: after the download. -/
def w2ExtractFail : World :=
  (__downloadFileToTemp envExtractFail "http://host/a.zip" "d" w1ExtractFail).2

/-- Intermediate world of the extraction-failure run: after the (failed)
extraction. -/
def w3ExtractFail : World :=
  (unZip envExtractFail (pathJoin "d" "_temp_.zip") "d" w2ExtractFail).2

/-- Final world of the extraction-failure run: after removing the temp file. -/
def w4ExtractFail : World :=
  (Deno.remove (pathJoin "d" "_temp_.zip") w3ExtractFail).2

/-- Intermediate world of the spawn-error run: after ensuring the
destination. -/
def w1SpawnErr : World := (ensureDestination "d" wEmpty).2

/-- Intermediate world of the spawn-error run: after the download. -/
def w2SpawnErr : World :=
  (__downloadFileToTemp envSpawnErr "http://host/a.zip" "d" w1SpawnErr).2


/-! Helper lemmas about the embedding. -/

theorem FileM.bind_apply {α β : Type} (m : FileM α) (f : α → FileM β) (w : World) :
    (m >>= f) w =
      match m w with
      | (Except.ok a, w') => f a w'
      | (Except.error e, w') => (Except.error e, w') := rfl

theorem FileM.pure_apply {α : Type} (a : α) (w : World) :
    (pure a : FileM α) w = (Except.ok a, w) := rfl

theorem FileM.bind_ok {α β : Type} {m : FileM α} {f : α → FileM β} {w w' : World} {r : β}
    (h : (m >>= f) w = (Except.ok r, w')) :
    ∃ a w₁, m w = (Except.ok a, w₁) ∧ f a w₁ = (Except.ok r, w') := by
  rw [FileM.bind_apply] at h
  rcases hm : m w with ⟨ra, w₁⟩
  rw [hm] at h
  cases ra with
  | ok a => exact ⟨a, w₁, rfl, h⟩
  | error e => exact absurd h (by simp)

theorem Deno.remove_ok_none {p : String} {w w' : World} {r : Unit}
    (h : Deno.remove p w = (Except.ok r, w')) :
    w'.fs p = none := by
  unfold Deno.remove at h
  rcases he : w.errs p with _ | e <;> rw [he] at h
  · rcases hf : w.fs p with _ | ent <;> rw [hf] at h
    · exact absurd h (by simp)
    · obtain ⟨-, h2⟩ := Prod.mk.injEq .. ▸ h
      subst h2
      simp
  · exact absurd h (by simp)

theorem Deno.openWritePipe_ok {p c : String} {w w' : World} {r : Unit}
    (h : Deno.openWritePipe p c w = (Except.ok r, w')) :
    w'.fs p = some (Entry.file c) ∧ w'.errs = w.errs := by
  unfold Deno.openWritePipe at h
  rcases he : w.errs p with _ | e <;> rw [he] at h
  · rcases hf : w.fs p with _ | ent <;> [skip; cases ent] <;> rw [hf] at h
    · obtain ⟨-, h2⟩ := Prod.mk.injEq .. ▸ h
      subst h2
      simp [Deno.setFile]
    · obtain ⟨-, h2⟩ := Prod.mk.injEq .. ▸ h
      subst h2
      simp [Deno.setFile]
    · exact absurd h (by simp)
  · exact absurd h (by simp)

theorem downloadFileToTemp_ok {env : Env} {url dest temp : String} {w w' : World}
    (h : __downloadFileToTemp env url dest w = (Except.ok temp, w')) :
    temp = pathJoin dest "_temp_.zip" ∧
    (∃ body, env.fetch url = Except.ok (some body) ∧ w'.fs temp = some (Entry.file body)) := by
  unfold __downloadFileToTemp at h
  rcases hf : env.fetch url with e | b <;> rw [hf] at h
  · exact absurd h (by simp)
  · cases b with
    | none => exact absurd h (by simp)
    | some body =>
      dsimp only at h
      rcases ho : Deno.openWritePipe (pathJoin dest "_temp_.zip") body w with ⟨res, w₂⟩
      rw [ho] at h
      cases res with
      | ok u =>
        obtain ⟨h1, h2⟩ := Prod.mk.injEq .. ▸ h
        obtain h1 := Except.ok.inj h1
        subst h1; subst h2
        exact ⟨rfl, body, rfl, (Deno.openWritePipe_ok ho).1⟩
      | error e => exact absurd h (by simp)

theorem readTextFile_state (p : String) (w : World) : (readTextFile p w).2 = w := by
  unfold readTextFile Deno.readTextFile
  rcases he : w.errs p with _ | e
  · rcases hf : w.fs p with _ | ent <;> [skip; cases ent] <;> rfl
  · rfl

theorem readJsonFile_state (p : String) (w : World) : (readJsonFile p w).2 = w := by
  have hs := readTextFile_state p w
  unfold readJsonFile
  rcases hr : readTextFile p w with ⟨res, w'⟩
  rw [hr] at hs
  cases res with
  | ok s =>
    dsimp only
    cases JSON.parse s <;> exact hs
  | error e => exact hs

theorem ensureDestination_cases (dest : String) (w : World) :
    ensureDestination dest w = (Except.ok (), w) ∨
    (w.fs dest = none ∧
      ensureDestination dest w = (Except.ok (), Deno.setFile w dest Entry.dir)) ∨
    ∃ e, ensureDestination dest w = (Except.error e, w) := by
  rcases he : w.errs dest with _ | e
  · rcases hf : w.fs dest with _ | ent
    · refine Or.inr (Or.inl ⟨rfl, ?_⟩)
      unfold ensureDestination
      rw [FileM.bind_apply]
      simp [«exists», Deno.stat, he, hf, mkdirRecursive, Deno.mkdir]
    · refine Or.inl ?_
      unfold ensureDestination
      rw [FileM.bind_apply]
      simp [«exists», Deno.stat, he, hf, FileM.pure_apply]
  · by_cases hne : e = Err.NotFound
    · subst hne
      refine Or.inr (Or.inr ⟨Err.NotFound, ?_⟩)
      unfold ensureDestination
      rw [FileM.bind_apply]
      simp [«exists», Deno.stat, he, mkdirRecursive, Deno.mkdir]
    · refine Or.inr (Or.inr ⟨e, ?_⟩)
      unfold ensureDestination
      rw [FileM.bind_apply]
      simp [«exists», Deno.stat, he, hne]

/-! Claim theorems. -/

/-- C4: for every path, `exists` returns `true` when the underlying stat
succeeds, returns `false` exactly when stat fails with `NotFound`, and
re-raises every other error (e.g. permission denied) unchanged; no other
error kind is converted to a boolean. -/
theorem exists_boolean_spec (w : World) (p : String) :
    (∀ ent w', Deno.stat p w = (Except.ok ent, w') → «exists» p w = (Except.ok true, w')) ∧
    (∀ w', Deno.stat p w = (Except.error Err.NotFound, w') →
      «exists» p w = (Except.ok false, w')) ∧
    (∀ e w', Deno.stat p w = (Except.error e, w') → e ≠ Err.NotFound →
      «exists» p w = (Except.error e, w')) := by
  refine ⟨?_, ?_, ?_⟩
  · intro ent w' h
    unfold «exists»
    rw [h]
  · intro w' h
    unfold «exists»
    rw [h]
    simp
  · intro e w' h hne
    unfold «exists»
    rw [h]
    simp [hne]

/-- Witness for C4: a permission error on the stat is re-raised unchanged by
`exists`. -/
theorem exists_boolean_spec_witness :
    «exists» "locked" wPerm = (Except.error Err.PermissionDenied, wPerm) :=
  (exists_boolean_spec wPerm "locked").2.2 Err.PermissionDenied wPerm rfl (by decide)

/-- C7: `mkdir` is not idempotent (a second call on the same now-existing
path raises `AlreadyExists`) while `mkdirRecursive` is idempotent (a second
call on the already-present directory succeeds without error). -/
theorem mkdir_not_idempotent_mkdirRecursive_idempotent (w : World) (p : String)
    (herr : w.errs p = none) (hfs : w.fs p = none) :
    (mkdir p w = (Except.ok (), Deno.setFile w p Entry.dir) ∧
     mkdir p (Deno.setFile w p Entry.dir) =
       (Except.error Err.AlreadyExists, Deno.setFile w p Entry.dir)) ∧
    (mkdirRecursive p w = (Except.ok (), Deno.setFile w p Entry.dir) ∧
     mkdirRecursive p (Deno.setFile w p Entry.dir) =
       (Except.ok (), Deno.setFile w p Entry.dir)) := by
  have hserr : (Deno.setFile w p Entry.dir).errs p = none := herr
  have hsfs : (Deno.setFile w p Entry.dir).fs p = some Entry.dir := by
    simp [Deno.setFile]
  refine ⟨⟨?_, ?_⟩, ?_, ?_⟩ <;>
    simp [mkdir, mkdirRecursive, Deno.mkdir, herr, hfs, hserr, hsfs]

/-- Witness for C7 at a concrete fresh path in the empty world. -/
theorem mkdir_idempotence_witness :
    (mkdir "a" wEmpty = (Except.ok (), Deno.setFile wEmpty "a" Entry.dir) ∧
     mkdir "a" (Deno.setFile wEmpty "a" Entry.dir) =
       (Except.error Err.AlreadyExists, Deno.setFile wEmpty "a" Entry.dir)) ∧
    (mkdirRecursive "a" wEmpty = (Except.ok (), Deno.setFile wEmpty "a" Entry.dir) ∧
     mkdirRecursive "a" (Deno.setFile wEmpty "a" Entry.dir) =
       (Except.ok (), Deno.setFile wEmpty "a" Entry.dir)) :=
  mkdir_not_idempotent_mkdirRecursive_idempotent wEmpty "a" rfl rfl

/-- C8: writing text to a writable path and reading it back returns exactly
the written content. -/
theorem writeTextFile_readTextFile_roundtrip (w : World) (p content : String)
    (herr : w.errs p = none) (hnotdir : w.fs p ≠ some Entry.dir) :
    writeTextFile p content w = (Except.ok (), Deno.setFile w p (Entry.file content)) ∧
    readTextFile p (Deno.setFile w p (Entry.file content)) =
      (Except.ok content, Deno.setFile w p (Entry.file content)) := by
  constructor
  · rcases hf : w.fs p with _ | ent
    · simp [writeTextFile, Deno.writeTextFile, herr, hf]
    · cases ent with
      | file c => simp [writeTextFile, Deno.writeTextFile, herr, hf]
      | dir => exact absurd hf hnotdir
  · have hserr : (Deno.setFile w p (Entry.file content)).errs p = none := herr
    have hsfs : (Deno.setFile w p (Entry.file content)).fs p =
        some (Entry.file content) := by simp [Deno.setFile]
    simp [readTextFile, Deno.readTextFile, hserr, hsfs]

/-- Witness for C8: the spec's example, writing and re-reading "Write". -/
theorem writeTextFile_readTextFile_roundtrip_witness :
    writeTextFile "w.txt" "Write" wEmpty =
      (Except.ok (), Deno.setFile wEmpty "w.txt" (Entry.file "Write")) ∧
    readTextFile "w.txt" (Deno.setFile wEmpty "w.txt" (Entry.file "Write")) =
      (Except.ok "Write", Deno.setFile wEmpty "w.txt" (Entry.file "Write")) :=
  writeTextFile_readTextFile_roundtrip wEmpty "w.txt" "Write" rfl (by simp [wEmpty])

/-- C5: `unZip` never raises for a failed extraction: it returns a boolean
equal to the external process's exit-status success, selects the
OS-appropriate command (PowerShell Expand-Archive on Windows, unzip
elsewhere), and raises exactly when the external command cannot be
started. -/
theorem unZip_success_flag_spec (env : Env) (zip dest : String) (w : World) :
    (unzipCommand OS.windows zip dest =
      { name := "PowerShell"
        args := ["Expand-Archive", "-Path", zip, "-DestinationPath", dest] }) ∧
    (env.os ≠ OS.windows →
      unzipCommand env.os zip dest = { name := "unzip", args := [zip, "-d", dest] }) ∧
    (∀ out w', env.runCommand (unzipCommand env.os zip dest) w = (Except.ok out, w') →
      unZip env zip dest w = (Except.ok out.success, w')) ∧
    (∀ e w', unZip env zip dest w = (Except.error e, w') ↔
      env.runCommand (unzipCommand env.os zip dest) w = (Except.error e, w')) := by
  refine ⟨by simp [unzipCommand], fun h => by simp [unzipCommand, h], ?_, ?_⟩
  · intro out w' h
    unfold unZip
    dsimp only
    rw [h]
  · intro e w'
    constructor
    · intro h
      unfold unZip at h
      dsimp only at h
      rcases hc : env.runCommand (unzipCommand env.os zip dest) w with ⟨res, w₂⟩
      rw [hc] at h
      cases res with
      | ok out => exact absurd h (by simp)
      | error e' =>
        obtain ⟨h1, h2⟩ := Prod.mk.injEq .. ▸ h
        rw [Except.error.inj h1, h2]
    · intro h
      unfold unZip
      dsimp only
      rw [h]

/-- Witness for C5: a command that cannot be started makes `unZip` raise that
error. -/
theorem unZip_success_flag_spec_witness :
    unZip envSpawnErr "a.zip" "d" wEmpty = (Except.error (Err.other "ENOENT"), wEmpty) :=
  ((unZip_success_flag_spec envSpawnErr "a.zip" "d" wEmpty).2.2.2
    (Err.other "ENOENT") wEmpty).2 rfl

theorem readJsonFilesLoop_spec (l : List String) (acc : List JSON) (w : World) :
    readJsonFilesLoop l acc w =
      ((readJsonSeqSpec l w).map fun js => acc ++ js, w) := by
  induction l generalizing acc with
  | nil => simp [readJsonFilesLoop, readJsonSeqSpec, FileM.pure_apply, Except.map]
  | cons f rest ih =>
    rcases hr : readJsonFile f w with ⟨res, w'⟩
    have hw : w' = w := by
      have hst := readJsonFile_state f w
      rw [hr] at hst
      exact hst
    rw [hw] at hr
    simp only [readJsonFilesLoop, FileM.bind_apply, hr]
    cases res with
    | ok j =>
      dsimp only
      rw [ih (acc ++ [j])]
      simp only [readJsonSeqSpec, hr]
      rcases hs : readJsonSeqSpec rest w with e2 | js <;> simp [hs, Except.map]
    | error e => simp [readJsonSeqSpec, hr, Except.map]

/-- C6: `readJsonFilesFromPath` returns the parsed JSON objects of all files
matched by the glob, as an ordered sequence in the glob's iteration order,
and propagates the first read/parse failure without returning any partial
result. -/
theorem readJsonFilesFromPath_spec (expandGlob : String → World → List String)
    (pattern : String) (w : World) :
    readJsonFilesFromPath expandGlob pattern w =
      (readJsonSeqSpec (expandGlob pattern w) w, w) := by
  unfold readJsonFilesFromPath
  rw [readJsonFilesLoop_spec]
  cases readJsonSeqSpec (expandGlob pattern w) w <;> simp [Except.map]

/-- C9: writing an object as JSON and reading the file back returns exactly
the JSON-serialization round-trip of the object; `writeJsonFile` serializes
with compact `JSON.stringify` (no pretty-printing), and on the spec's example
object the round trip is the identity. -/
theorem writeJsonFile_readJsonFile_roundtrip (w : World) (p : String) (o : JSON)
    (herr : w.errs p = none) (hnotdir : w.fs p ≠ some Entry.dir) :
    writeJsonFile p o = writeTextFile p (JSON.stringify o) ∧
    JSON.stringify (JSON.obj [("title", JSON.str "Write")]) = "\x7b\"title\":\"Write\"\x7d" ∧
    JSON.parse (JSON.stringify (JSON.obj [("title", JSON.str "Write")])) =
      some (JSON.obj [("title", JSON.str "Write")]) ∧
    writeJsonFile p o w =
      (Except.ok (), Deno.setFile w p (Entry.file (JSON.stringify o))) ∧
    ∀ j, JSON.parse (JSON.stringify o) = some j →
      readJsonFile p (Deno.setFile w p (Entry.file (JSON.stringify o))) =
        (Except.ok j, Deno.setFile w p (Entry.file (JSON.stringify o))) := by
  refine ⟨rfl, rfl, rfl, ?_, ?_⟩
  · rcases hf : w.fs p with _ | ent
    · simp [writeJsonFile, writeTextFile, Deno.writeTextFile, herr, hf]
    · cases ent with
      | file c => simp [writeJsonFile, writeTextFile, Deno.writeTextFile, herr, hf]
      | dir => exact absurd hf hnotdir
  · intro j hj
    have hserr : (Deno.setFile w p (Entry.file (JSON.stringify o))).errs p = none := herr
    have hsfs : (Deno.setFile w p (Entry.file (JSON.stringify o))).fs p =
        some (Entry.file (JSON.stringify o)) := by simp [Deno.setFile]
    simp [readJsonFile, readTextFile, Deno.readTextFile, hserr, hsfs, hj]

/-- Witness for C9: the spec's example object round-trips through write and
read at a concrete path. -/
theorem writeJsonFile_readJsonFile_roundtrip_witness :
    readJsonFile "w.json" (Deno.setFile wEmpty "w.json"
        (Entry.file (JSON.stringify (JSON.obj [("title", JSON.str "Write")])))) =
      (Except.ok (JSON.obj [("title", JSON.str "Write")]),
        Deno.setFile wEmpty "w.json"
          (Entry.file (JSON.stringify (JSON.obj [("title", JSON.str "Write")])))) :=
  (writeJsonFile_readJsonFile_roundtrip wEmpty "w.json"
      (JSON.obj [("title", JSON.str "Write")]) rfl (by simp [wEmpty])).2.2.2.2
    (JSON.obj [("title", JSON.str "Write")]) rfl

/-- C3: every successful run of `unZipFromURL` ends with the temporary
archive file deleted: whatever extraction reported, the temp path no longer
exists in the destination directory in the final world. -/
theorem unZipFromURL_removes_temp (env : Env) (url dest : String) (w w' : World) (r : Unit)
    (h : unZipFromURL env url dest w = (Except.ok r, w')) :
    w'.fs (pathJoin dest "_temp_.zip") = none := by
  unfold unZipFromURL at h
  obtain ⟨u1, w₁, h1, h⟩ := FileM.bind_ok h
  obtain ⟨temp, w₂, h2, h⟩ := FileM.bind_ok h
  obtain ⟨b, w₃, h3, h⟩ := FileM.bind_ok h
  obtain ⟨htemp, -⟩ := downloadFileToTemp_ok h2
  rw [htemp] at h
  exact Deno.remove_ok_none h

/-- Witness for C3: a concrete successful run leaves no temp file. -/
theorem unZipFromURL_removes_temp_witness :
    ((unZipFromURL envSuccess "http://host/a.zip" "d" wEmpty).2).fs
      (pathJoin "d" "_temp_.zip") = none :=
  unZipFromURL_removes_temp envSuccess "http://host/a.zip" "d" wEmpty
    (unZipFromURL envSuccess "http://host/a.zip" "d" wEmpty).2 () rfl

/-- C1: when the download succeeds and the extraction step reports failure
(`unZip` returns `false`), `unZipFromURL` ignores the boolean: it still
deletes the temp file and returns normally, raising no error. -/
theorem unZipFromURL_ignores_extraction_failure (env : Env) (url dest temp : String)
    (w w₁ w₂ w₃ w₄ : World)
    (h1 : ensureDestination dest w = (Except.ok (), w₁))
    (h2 : __downloadFileToTemp env url dest w₁ = (Except.ok temp, w₂))
    (h3 : unZip env temp dest w₂ = (Except.ok false, w₃))
    (h4 : Deno.remove temp w₃ = (Except.ok (), w₄)) :
    unZipFromURL env url dest w = (Except.ok (), w₄) ∧ w₄.fs temp = none := by
  refine ⟨?_, Deno.remove_ok_none h4⟩
  unfold unZipFromURL
  simp only [FileM.bind_apply, h1, h2, h3, h4]

/-- Witness for C1: a concrete run whose extraction reports failure still
completes without error and deletes the temp file. -/
theorem unZipFromURL_ignores_extraction_failure_witness :
    unZipFromURL envExtractFail "http://host/a.zip" "d" wEmpty =
      (Except.ok (), w4ExtractFail) ∧
    w4ExtractFail.fs (pathJoin "d" "_temp_.zip") = none :=
  unZipFromURL_ignores_extraction_failure envExtractFail "http://host/a.zip" "d"
    (pathJoin "d" "_temp_.zip") wEmpty w1ExtractFail w2ExtractFail w3ExtractFail
    w4ExtractFail rfl rfl rfl rfl

/-- C10: if the extraction step itself raises (the external decompression
command cannot be started, leaving the filesystem untouched), `unZipFromURL`
propagates that error, the cleanup step never runs, and the downloaded
`_temp_.zip` remains in the destination directory. -/
theorem unZipFromURL_spawn_error_keeps_temp (env : Env) (url dest temp : String)
    (w w₁ w₂ : World) (e : Err)
    (h1 : ensureDestination dest w = (Except.ok (), w₁))
    (h2 : __downloadFileToTemp env url dest w₁ = (Except.ok temp, w₂))
    (h3 : unZip env temp dest w₂ = (Except.error e, w₂)) :
    unZipFromURL env url dest w = (Except.error e, w₂) ∧
    ∃ body, w₂.fs temp = some (Entry.file body) := by
  constructor
  · unfold unZipFromURL
    simp only [FileM.bind_apply, h1, h2, h3]
  · obtain ⟨-, body, -, hb⟩ := downloadFileToTemp_ok h2
    exact ⟨body, hb⟩

/-- Witness for C10: a concrete run whose unzip command cannot start leaves
the temp file in place and surfaces the spawn error. -/
theorem unZipFromURL_spawn_error_keeps_temp_witness :
    unZipFromURL envSpawnErr "http://host/a.zip" "d" wEmpty =
      (Except.error (Err.other "ENOENT"), w2SpawnErr) ∧
    ∃ body, w2SpawnErr.fs (pathJoin "d" "_temp_.zip") = some (Entry.file body) :=
  unZipFromURL_spawn_error_keeps_temp envSpawnErr "http://host/a.zip" "d"
    (pathJoin "d" "_temp_.zip") wEmpty w1SpawnErr w2SpawnErr (Err.other "ENOENT")
    rfl rfl rfl

/-- C2 counterexample: with a failing fetch and an absent destination,
`unZipFromURL` raises the transport error only after the destination
directory has been created, so "no directory has been created" is false. -/
theorem unZipFromURL_transport_error_counterexample :
    (unZipFromURL envNetFail "http://host/a.zip" "dest" wEmpty).1 =
      Except.error (Err.other "network failure") ∧
    wEmpty.fs "dest" = none ∧
    (unZipFromURL envNetFail "http://host/a.zip" "dest" wEmpty).2.fs "dest" =
      some Entry.dir :=
  ⟨rfl, rfl, rfl⟩

/-- C2 amended: a transport error (fetch failure or null response body) is
raised before any file is written or removed: every path other than the
destination directory is untouched, and the destination itself either keeps
its prior entry or has just been created as a directory by step 1 (which
runs before the download). -/
theorem unZipFromURL_transport_error_no_file_mutation (env : Env) (url dest : String)
    (w : World)
    (hfetch : (∃ e, env.fetch url = Except.error e) ∨ env.fetch url = Except.ok none) :
    (∃ e', (unZipFromURL env url dest w).1 = Except.error e') ∧
    (∀ p, p ≠ dest → (unZipFromURL env url dest w).2.fs p = w.fs p) ∧
    ((unZipFromURL env url dest w).2.fs dest = w.fs dest ∨
     (unZipFromURL env url dest w).2.fs dest = some Entry.dir) := by
  have hdl : ∀ w₁, ∃ e', __downloadFileToTemp env url dest w₁ = (Except.error e', w₁) := by
    intro w₁
    unfold __downloadFileToTemp
    rcases hfetch with ⟨e, hf⟩ | hf <;> rw [hf]
    · exact ⟨e, rfl⟩
    · exact ⟨Err.other "Response body is null", rfl⟩
  rcases ensureDestination_cases dest w with hcase | ⟨hnone, hcase⟩ | ⟨e0, hcase⟩
  · obtain ⟨e', hd⟩ := hdl w
    have hrun : unZipFromURL env url dest w = (Except.error e', w) := by
      unfold unZipFromURL
      simp only [FileM.bind_apply, hcase, hd]
    rw [hrun]
    exact ⟨⟨e', rfl⟩, fun p _ => rfl, Or.inl rfl⟩
  · obtain ⟨e', hd⟩ := hdl (Deno.setFile w dest Entry.dir)
    have hrun : unZipFromURL env url dest w =
        (Except.error e', Deno.setFile w dest Entry.dir) := by
      unfold unZipFromURL
      simp only [FileM.bind_apply, hcase, hd]
    rw [hrun]
    refine ⟨⟨e', rfl⟩, ?_, Or.inr ?_⟩
    · intro p hp
      simp [Deno.setFile, hp]
    · simp [Deno.setFile]
  · have hrun : unZipFromURL env url dest w = (Except.error e0, w) := by
      unfold unZipFromURL
      simp only [FileM.bind_apply, hcase]
    rw [hrun]
    exact ⟨⟨e0, rfl⟩, fun p _ => rfl, Or.inl rfl⟩

/-- Witness for the amended C2: a failing fetch on a world with one unrelated
file leaves that file (and every non-destination path) untouched. -/
theorem unZipFromURL_transport_error_no_file_mutation_witness :
    (∃ e', (unZipFromURL envNetFail "http://host/a.zip" "d" wHello).1 = Except.error e') ∧
    (∀ p, p ≠ "d" → (unZipFromURL envNetFail "http://host/a.zip" "d" wHello).2.fs p =
      wHello.fs p) ∧
    ((unZipFromURL envNetFail "http://host/a.zip" "d" wHello).2.fs "d" = wHello.fs "d" ∨
     (unZipFromURL envNetFail "http://host/a.zip" "d" wHello).2.fs "d" =
       some Entry.dir) :=
  unZipFromURL_transport_error_no_file_mutation envNetFail "http://host/a.zip" "d" wHello
    (Or.inl ⟨Err.other "network failure", rfl⟩)
